import Mathlib

/-!
Shallow embedding of the log tailing and rotation engine of
`ops_toolkit_gui`: `LogRotateService.rotate_if_needed` and
`_cleanup_old_archives` (src/ops_toolkit_gui/services/log_rotate_service.py)
and `LogAnalyzerCollector.configure` / `collect` / `_keyword_hits`
(src/ops_toolkit_gui/collectors/log_analyzer_collector.py).

Conventions of the embedding:
* File contents are lists of characters; offsets count characters, which
  coincides with the source's byte offsets for ASCII data (the file is
  opened in text mode with utf-8 and `errors="ignore"`).
* Filesystem effects are made explicit: `rotate_if_needed` threads a
  `RotFs` state recording the files the rotation touches, and the outcome
  of each fallible OS call (`shutil.move`, `Path.touch`, the gzip copy,
  `Path.stat`) is an input in `RotEnv`; the exception text that the source
  interpolates into its messages is carried as a string field.
* `datetime.now().strftime(...)` is nondeterministic at the source level,
  so the timestamp string is an input (`RotEnv.ts`).
* The retention cleanup step (`_cleanup_old_archives`) only deletes files
  matching `<name>.*<suffix>` in the archive directory and swallows every
  exception, returning `None`; of the tracked state, the only file it can
  affect is the compressed archive this very rotation created (e.g. when
  `keep_archives` is 0), so its outcome is the input bit
  `RotEnv.cleanupKeepsNew`, which the returned `RotateResult` provably
  never depends on.
-/

namespace OpsToolkit

/-- Mirrors the frozen dataclass `RotateResult(rotated, archived_path, message)`. -/
structure RotateResult where
  rotated : Bool
  archived_path : Option String
  message : String
deriving DecidableEq, Repr

/-- Mirrors `LogRotateService.__init__`: `max_bytes`, `keep_archives`,
`archive_suffix` (default `".gz"`, the leading dot is part of the suffix). -/
structure LogRotateService where
  max_bytes : Nat
  keep_archives : Nat
  archive_suffix : String
deriving DecidableEq, Repr

/-- The slice of filesystem state that one rotation touches: the live log
file (present with a size, or absent), the archive subdirectory, and the
uncompressed / compressed archive files produced by this rotation.
Pre-existing archives from older rotations are outside this record: the
retention cleanup (whose exceptions are all swallowed) acts on them. -/
structure RotFs where
  live : Option Nat
  dirExists : Bool
  plainArchive : Bool
  gzArchive : Bool
deriving DecidableEq, Repr

/-- Inputs of one `rotate_if_needed` call that the OS decides: the
timestamp string, whether each guarded OS call raises (with the exception
text used in the message), and whether the retention cleanup — which
deletes old archive files and swallows every exception — leaves the
freshly written compressed archive in place (the only tracked file it can
touch). -/
structure RotEnv where
  ts : String
  statFails : Bool
  statErr : String
  moveFails : Bool
  moveErr : String
  touchFails : Bool
  gzipFails : Bool
  gzipErr : String
  cleanupKeepsNew : Bool
deriving Repr

/-- Mirrors `archive_dir = p.parent / "ops_toolkit_archives"`. -/
def archiveDirPath (dir : String) : String :=
  dir ++ "/ops_toolkit_archives"

/-- Mirrors `rotated_plain = archive_dir / f"{p.name}.{ts}"`. -/
def rotatedPlainPath (dir name ts : String) : String :=
  archiveDirPath dir ++ "/" ++ name ++ "." ++ ts

/-- Mirrors `rotated_gz = Path(str(rotated_plain) + self.archive_suffix)`. -/
def rotatedGzPath (dir name ts suffix : String) : String :=
  rotatedPlainPath dir name ts ++ suffix

/-- Shallow embedding of `LogRotateService.rotate_if_needed(log_path)`.
The path argument is split into the parent directory and the file name
(`p.parent` and `p.name`).  Control flow mirrors the source line by line:
missing file, stat failure, size below threshold, `mkdir`, then one `try`
containing BOTH `shutil.move` and `p.touch` (a failure of either returns
`rotated=False` with the message `rotate move failed: ...` and nothing is
rolled back), then the gzip `try` (a failure there returns `rotated=True`
with the uncompressed path), then retention cleanup and success. -/
def rotate_if_needed (svc : LogRotateService) (env : RotEnv) (dir name : String)
    (st : RotFs) : RotateResult × RotFs :=
  match st.live with
  | none =>
      ({ rotated := false, archived_path := none,
         message := "log not found: " ++ dir ++ "/" ++ name }, st)
  | some size =>
      if env.statFails then
        ({ rotated := false, archived_path := none,
           message := "stat failed: " ++ env.statErr }, st)
      else if size < svc.max_bytes then
        ({ rotated := false, archived_path := none, message := "no rotation" }, st)
      else
        -- archive_dir.mkdir(parents=True, exist_ok=True)
        let st1 : RotFs := { st with dirExists := true }
        if env.moveFails then
          ({ rotated := false, archived_path := none,
             message := "rotate move failed: " ++ env.moveErr }, st1)
        else
          -- shutil.move succeeded: live file gone, uncompressed archive present
          let st2 : RotFs := { st1 with live := none, plainArchive := true }
          if env.touchFails then
            ({ rotated := false, archived_path := none,
               message := "rotate move failed: " ++ env.moveErr }, st2)
          else
            -- p.touch(exist_ok=True) succeeded: empty live file recreated
            let st3 : RotFs := { st2 with live := some 0 }
            if env.gzipFails then
              ({ rotated := true,
                 archived_path := some (rotatedPlainPath dir name env.ts),
                 message := "gzip failed: " ++ env.gzipErr }, st3)
            else
              let st4 : RotFs :=
                { st3 with plainArchive := false, gzArchive := env.cleanupKeepsNew }
              ({ rotated := true,
                 archived_path := some (rotatedGzPath dir name env.ts svc.archive_suffix),
                 message := "rotated" }, st4)

/-! ## Keyword scanning (`LogAnalyzerCollector._keyword_hits`) -/

/-- Case-insensitive literal substring test: `needle` occurs contiguously
in `hay` starting at position 0. -/
def startsAt : List Char → List Char → Bool
  | [], _ => true
  | _ :: _, [] => false
  | a :: as, b :: bs => (a == b) && startsAt as bs

/-- `needle` occurs contiguously somewhere in `hay`. -/
def hasSub (needle : List Char) : List Char → Bool
  | [] => needle.isEmpty
  | c :: rest => startsAt needle (c :: rest) || hasSub needle rest

/-- Mirrors `re.compile(re.escape(k), re.IGNORECASE).search(line)`: the
keyword is escaped, so this is a literal substring search, and IGNORECASE
is modelled by lowercasing both sides character-wise. -/
def matchesCI (k line : List Char) : Bool :=
  hasSub (k.map Char.toLower) (line.map Char.toLower)

/-- Mirrors `str.strip()`: drop whitespace from both ends. -/
def stripS (s : List Char) : List Char :=
  ((s.dropWhile Char.isWhitespace).reverse.dropWhile Char.isWhitespace).reverse

/-- Mirrors the matcher-building loop of `_keyword_hits`: each keyword is
stripped, empty results are skipped, and one (literal, case-insensitive)
matcher keyed by the stripped string is appended per surviving keyword.
Since the compiled pattern is a function of the stripped keyword alone,
the matcher list is represented by the list of stripped keywords. -/
def buildPats : List (List Char) → List (List Char)
  | [] => []
  | k :: ks =>
      let k2 := stripS k
      if k2.isEmpty then buildPats ks else k2 :: buildPats ks

/-- Mirrors `c[k] += 1` on a `Counter`: an insertion-ordered association
list where an absent key is appended at the end with count 1. -/
def bump : List (List Char × Nat) → List Char → List (List Char × Nat)
  | [], k => [(k, 1)]
  | (k2, n) :: rest, k =>
      if k2 = k then (k2, n + 1) :: rest else (k2, n) :: bump rest k

/-- Mirrors the inner loop of `_keyword_hits`: one line against every
matcher, bumping the matcher's key when the line matches. -/
def scanLine (line : List Char) : List (List Char × Nat) → List (List Char) → List (List Char × Nat)
  | c, [] => c
  | c, k :: ps => scanLine line (if matchesCI k line then bump c k else c) ps

/-- Mirrors the outer loop of `_keyword_hits`: every line in order. -/
def tally (pats : List (List Char)) : List (List Char × Nat) → List (List Char) → List (List Char × Nat)
  | c, [] => c
  | c, line :: rest => tally pats (scanLine line c pats) rest

/-- Shallow embedding of `_keyword_hits(lines, keywords)`.  The source
returns a `Counter`; its `items()` view is the insertion-ordered
association list built here.  `if not keywords: return c` returns the
empty counter for an empty keyword list. -/
def keyword_hits (lines keywords : List (List Char)) : List (List Char × Nat) :=
  match keywords with
  | [] => []
  | _ :: _ => tally (buildPats keywords) [] lines

/-- Multiplicity of `k` in a list (number of matchers keyed `k`). -/
def mult (k : List Char) : List (List Char) → Nat
  | [] => 0
  | p :: ps => (if p = k then 1 else 0) + mult k ps

/-- Count stored under key `k` in the association list (0 when absent). -/
def countOf (k : List Char) : List (List Char × Nat) → Nat
  | [] => 0
  | (k2, n) :: rest => if k2 = k then n else countOf k rest

/-- Keys of the association list, in order. -/
def hitKeys (c : List (List Char × Nat)) : List (List Char) :=
  c.map Prod.fst

/-- Sum of all counters, mirroring `sum(hits.values())`. -/
def sumCounts : List (List Char × Nat) → Nat
  | [] => 0
  | (_, n) :: rest => n + sumCounts rest

/-! ## The stable descending sort of `collect`

`hit_list.sort(key=lambda x: x.count, reverse=True)` is Python's stable
sort, descending by count; it is embedded as the (extensionally equal)
stable insertion sort: an element is inserted after the elements with a
strictly greater count and before the first element with a count less
than or equal to its own, so equal counts keep their pre-sort order. -/

/-- Insert one hit into a descending-by-count list, keeping it after all
strictly greater counts (stability for ties). -/
def insertDesc (x : List Char × Nat) : List (List Char × Nat) → List (List Char × Nat)
  | [] => [x]
  | y :: ys => if x.2 < y.2 then y :: insertDesc x ys else x :: y :: ys

/-- Stable descending-by-count sort. -/
def sortHitsDesc : List (List Char × Nat) → List (List Char × Nat)
  | [] => []
  | x :: xs => insertDesc x (sortHitsDesc xs)

/-! ## The tailer (`LogAnalyzerCollector`) -/

/-- Mirrors `LogData` (models/logs.py): the per-poll snapshot.  The lines
and hit keywords are character lists; `ts` (a wall-clock datetime) is not
modelled. -/
structure LogData where
  path : String
  last_read_pos : Nat
  new_lines : List (List Char)
  keyword_hits : List (List Char × Nat)
  notes : List String
deriving DecidableEq, Repr

/-- Mirrors `CollectorResult` (models/common.py) minus the wall-clock `ts`. -/
structure CollectorResult where
  status : String
  warning_count : Nat
  warnings : List String
  data : LogData
deriving DecidableEq, Repr

/-- The mutable fields of a `LogAnalyzerCollector` instance: configuration
plus the read cursor `_pos`.  The rotator instance is carried so that
`configure` can rebuild it field by field as the source does. -/
structure Tailer where
  path : String
  keywords : List (List Char)
  rotator : LogRotateService
  max_lines_per_poll : Nat
  max_line_length : Nat
  pos : Nat
deriving DecidableEq, Repr

/-- OS-decided inputs of one `collect()` call: whether the target exists
as a regular file, the `RotateResult` of the `rotate_if_needed` call (it
acts on the real filesystem), the `st_size` observed by `p.stat()` (or
`none` when the stat raises, with its exception text), the character
content the subsequent `open`/`readline` calls observe, and whether the
read raises — `readFailAfter = some j` means the `open`/`seek`/`readline`
machinery raises just before the `(j+1)`-th line would be produced
(`some 0` is a failure of `open` or `seek` itself), `none` means the read
completes. -/
structure PollEnv where
  fileExists : Bool
  rotateRes : RotateResult
  statSize : Option Nat
  statErr : String
  content : List Char
  readFailAfter : Option Nat
  readErr : String
deriving Repr

/-- Mirrors `f.readline()` from position `pos`: the characters up to and
including the first newline, or up to the end of the file. -/
def takeLine : List Char → List Char
  | [] => []
  | c :: cs => if c == '\n' then [c] else c :: takeLine cs

/-- Mirrors `line.rstrip("\n")`. -/
def rstripNl (l : List Char) : List Char :=
  (l.reverse.dropWhile (fun c => c == '\n')).reverse

/-- Mirrors the per-line shaping: strip the trailing newline, then
`line[:max_line_length] + "…"` when the line is longer than the cap. -/
def procLine (maxLen : Nat) (raw : List Char) : List Char :=
  let line := rstripNl raw
  if maxLen < line.length then line.take maxLen ++ ['…'] else line

/-- One step of the failure countdown for `readFailAfter`. -/
def decFail : Option Nat → Option Nat
  | some (n + 1) => some n
  | some 0 => some 0
  | none => none

/-- Mirrors the bounded read loop of `collect`: up to `budget` calls to
`readline` starting at `pos`; an empty `readline` result breaks the loop.
Returns the shaped lines, the final read position (`f.tell()`), and
whether the read raised.  On a raise the position component is not used
by the caller (`self._pos = f.tell()` is skipped). -/
def readLoop (content : List Char) (pos budget maxLen : Nat)
    (failAfter : Option Nat) : List (List Char) × Nat × Bool :=
  match budget with
  | 0 => ([], pos, false)
  | b + 1 =>
      if failAfter = some 0 then ([], pos, true)
      else
        let raw := takeLine (content.drop pos)
        if raw.isEmpty then ([], pos, false)
        else
          let r := readLoop content (pos + raw.length) b maxLen (decFail failAfter)
          (procLine maxLen raw :: r.1, r.2.1, r.2.2)

/-- The cursor after the rotation check: `if rotate_res.rotated: self._pos = 0`. -/
def posAfterRotate (pos : Nat) (env : PollEnv) : Nat :=
  if env.rotateRes.rotated then 0 else pos

/-- The cursor after the size guard: `if self._pos > st.st_size: self._pos = 0`
(skipped when the stat raises). -/
def posChecked (pos : Nat) (env : PollEnv) : Nat :=
  match env.statSize with
  | some sz => if posAfterRotate pos env > sz then 0 else posAfterRotate pos env
  | none => posAfterRotate pos env

/-- Notes appended by the rotation branch; `if rotate_res.archived_path:`
is Python truthiness, so an empty path string falls back to the generic
note. -/
def rotateNotes (env : PollEnv) : List String :=
  if env.rotateRes.rotated then
    match env.rotateRes.archived_path with
    | some ap => if ap = "" then ["log rotated"] else ["log rotated: " ++ ap]
    | none => ["log rotated"]
  else []

/-- Note appended when the stat raises. -/
def statNotes (env : PollEnv) : List String :=
  match env.statSize with
  | some _ => []
  | none => ["stat failed: " ++ env.statErr]

/-- Shallow embedding of `LogAnalyzerCollector.collect()`.  Returns the
snapshot and the updated collector state (only `_pos` ever changes).
Mirrors the source order: missing-file early return; rotation check with
cursor reset and note; stat-based size guard; bounded read (on a read
failure the cursor keeps its pre-read value and the lines read so far are
kept); keyword scan; stable descending sort of the hits; summary warning
and status. -/
def collect (t : Tailer) (env : PollEnv) : CollectorResult × Tailer :=
  if env.fileExists then
    let pos2 := posChecked t.pos env
    let rd := readLoop env.content pos2 t.max_lines_per_poll t.max_line_length env.readFailAfter
    let lines := rd.1
    let failed := rd.2.2
    let pos3 := if failed then pos2 else rd.2.1
    let notes := rotateNotes env ++ statNotes env ++
      (if failed then ["read failed: " ++ env.readErr] else [])
    let hits := keyword_hits lines t.keywords
    let total := sumCounts hits
    let warnings := if total > 0 then ["Keyword hits: " ++ toString total] else []
    ({ status := if warnings.isEmpty then "OK" else "WARN",
       warning_count := warnings.length,
       warnings := warnings,
       data := { path := t.path, last_read_pos := pos3, new_lines := lines,
                 keyword_hits := sortHitsDesc hits, notes := notes } },
     { t with pos := pos3 })
  else
    let note := "Log file not found: " ++ t.path
    ({ status := "WARN", warning_count := 1, warnings := [note],
       data := { path := t.path, last_read_pos := t.pos, new_lines := [],
                 keyword_hits := [], notes := [note] } },
     t)

/-- Shallow embedding of `LogAnalyzerCollector.configure(path, keywords,
rotate_max_bytes, rotate_keep_archives)`.  `if path:` is Python
truthiness (an empty string does not change the path); `keywords is not
None` installs any provided list; each rotation argument rebuilds the
rotator keeping the other field (the suffix falls back to the dataclass
default `".gz"`, as in the source, which never passes it); and finally
`self._pos = 0` unconditionally. -/
def configure (t : Tailer) (path : Option String) (keywords : Option (List (List Char)))
    (rmb rka : Option Nat) : Tailer :=
  let t1 := match path with
    | some s => if s = "" then t else { t with path := s }
    | none => t
  let t2 := match keywords with
    | some ks => { t1 with keywords := ks }
    | none => t1
  let t3 := match rmb with
    | some m =>
        { t2 with rotator :=
            { max_bytes := m, keep_archives := t2.rotator.keep_archives,
              archive_suffix := ".gz" } }
    | none => t2
  let t4 := match rka with
    | some k =>
        { t3 with rotator :=
            { max_bytes := t3.rotator.max_bytes, keep_archives := k,
              archive_suffix := ".gz" } }
    | none => t3
  { t4 with pos := 0 }

/-! ## Concrete inputs used by witnesses and counterexamples -/

/-- A rotation service with a 50-byte threshold and the default suffix. -/
def svcGz : LogRotateService :=
  { max_bytes := 50, keep_archives := 5, archive_suffix := ".gz" }

/-- A live 100-byte log, archive directory absent, no archives yet. -/
def stLive100 : RotFs :=
  { live := some 100, dirExists := false, plainArchive := false, gzArchive := false }

/-- Environment in which every OS call succeeds. -/
def envRotOk : RotEnv :=
  { ts := "20250101-120000", statFails := false, statErr := "", moveFails := false,
    moveErr := "", touchFails := false, gzipFails := false, gzipErr := "",
    cleanupKeepsNew := true }

/-- Environment in which the `shutil.move` raises. -/
def envRotMove : RotEnv := { envRotOk with moveFails := true, moveErr := "permission denied" }

/-- Environment in which the move succeeds but `p.touch` raises. -/
def envRotTouch : RotEnv := { envRotOk with touchFails := true, moveErr := "touch denied" }

/-- Environment in which the gzip compression raises after the move. -/
def envRotGzip : RotEnv := { envRotOk with gzipFails := true, gzipErr := "disk full" }

/-! ## Claims about `rotate_if_needed` (C1, C2, C8) -/

/-- C1, counterexample.  The claim says a failure in step 3 (recreating
the empty live file) after a successful rename still reports
`rotated=true`.  In the source, `p.touch` sits inside the same `try` as
`shutil.move`, so with the live 100-byte file over the 50-byte threshold,
a successful move and a failing touch return `rotated=false` — while the
live file is already gone and the uncompressed archive exists, so the
rotation is not rolled back either. -/
theorem rotate_c1_counterexample :
    (rotate_if_needed svcGz envRotTouch "/logs" "app.log" stLive100).1.rotated = false
    ∧ (rotate_if_needed svcGz envRotTouch "/logs" "app.log" stLive100).2.live = none
    ∧ (rotate_if_needed svcGz envRotTouch "/logs" "app.log" stLive100).2.plainArchive = true := by
  decide

/-- C1, amended.  For a live file at or over the threshold with a working
stat: (1) if the rename fails, the result is `rotated=false` with the
message `rotate move failed: ...` and no tracked file changed — though
the archive directory has already been created; (2) if the rename
succeeds and the recreation of the empty live file fails, the result is
ALSO `rotated=false` (same message), yet the move is not rolled back:
the live file is gone and the uncompressed archive exists; (3) once both
succeed, the result reports `rotated=true` whatever the compression and
retention steps do. -/
theorem rotate_failure_policy (svc : LogRotateService) (env : RotEnv) (dir name : String)
    (st : RotFs) (size : Nat) (hlive : st.live = some size)
    (hstat : env.statFails = false) (hsz : svc.max_bytes ≤ size) :
    (env.moveFails = true →
        (rotate_if_needed svc env dir name st).1.rotated = false
        ∧ (rotate_if_needed svc env dir name st).1.message
            = "rotate move failed: " ++ env.moveErr
        ∧ (rotate_if_needed svc env dir name st).2 = { st with dirExists := true })
    ∧ (env.moveFails = false → env.touchFails = true →
        (rotate_if_needed svc env dir name st).1.rotated = false
        ∧ (rotate_if_needed svc env dir name st).1.message
            = "rotate move failed: " ++ env.moveErr
        ∧ (rotate_if_needed svc env dir name st).2.live = none
        ∧ (rotate_if_needed svc env dir name st).2.plainArchive = true)
    ∧ (env.moveFails = false → env.touchFails = false →
        (rotate_if_needed svc env dir name st).1.rotated = true) := by
  have hlt : ¬ size < svc.max_bytes := by omega
  refine ⟨?_, ?_, ?_⟩
  · intro hm
    simp [rotate_if_needed, hlive, hstat, hlt, hm]
  · intro hm ht
    simp [rotate_if_needed, hlive, hstat, hlt, hm, ht]
  · intro hm ht
    cases hg : env.gzipFails <;>
      simp [rotate_if_needed, hlive, hstat, hlt, hm, ht, hg]

/-- C1, witness: the amended theorem applied to the concrete
move-failure scenario. -/
theorem rotate_failure_policy_witness :
    (rotate_if_needed svcGz envRotMove "/logs" "app.log" stLive100).1.rotated = false
    ∧ (rotate_if_needed svcGz envRotMove "/logs" "app.log" stLive100).1.message
        = "rotate move failed: " ++ envRotMove.moveErr
    ∧ (rotate_if_needed svcGz envRotMove "/logs" "app.log" stLive100).2
        = { stLive100 with dirExists := true } :=
  (rotate_failure_policy svcGz envRotMove "/logs" "app.log" stLive100 100 rfl rfl
    (by decide)).1 rfl

/-- C2: if compression fails after the move (and the recreation of the
empty live file) succeeded, the result still reports `rotated=true`, the
archived path is the uncompressed archive, the message reports the
compression failure, and the live path holds the freshly recreated empty
file — so the caller does not treat the file as un-rotated. -/
theorem rotate_gzip_failure (svc : LogRotateService) (env : RotEnv) (dir name : String)
    (st : RotFs) (size : Nat) (hlive : st.live = some size)
    (hstat : env.statFails = false) (hsz : svc.max_bytes ≤ size)
    (hm : env.moveFails = false) (ht : env.touchFails = false)
    (hg : env.gzipFails = true) :
    (rotate_if_needed svc env dir name st).1.rotated = true
    ∧ (rotate_if_needed svc env dir name st).1.archived_path
        = some (rotatedPlainPath dir name env.ts)
    ∧ (rotate_if_needed svc env dir name st).1.message
        = "gzip failed: " ++ env.gzipErr
    ∧ (rotate_if_needed svc env dir name st).2.live = some 0 := by
  have hlt : ¬ size < svc.max_bytes := by omega
  simp [rotate_if_needed, hlive, hstat, hlt, hm, ht, hg]

/-- C2, witness: the theorem applied to the concrete gzip-failure
scenario. -/
theorem rotate_gzip_failure_witness :
    (rotate_if_needed svcGz envRotGzip "/logs" "app.log" stLive100).1.rotated = true
    ∧ (rotate_if_needed svcGz envRotGzip "/logs" "app.log" stLive100).1.archived_path
        = some (rotatedPlainPath "/logs" "app.log" envRotGzip.ts)
    ∧ (rotate_if_needed svcGz envRotGzip "/logs" "app.log" stLive100).1.message
        = "gzip failed: " ++ envRotGzip.gzipErr
    ∧ (rotate_if_needed svcGz envRotGzip "/logs" "app.log" stLive100).2.live = some 0 :=
  rotate_gzip_failure svcGz envRotGzip "/logs" "app.log" stLive100 100 rfl rfl
    (by decide) rfl rfl rfl

/-- C8, counterexample.  The claim names the archive subdirectory
`archives`; the source uses `ops_toolkit_archives`.  On a successful
rotation of `/logs/app.log` the archive lands at
`/logs/ops_toolkit_archives/app.log.<ts>.gz`, which differs from the
claimed `/logs/archives/app.log.<ts>.gz`. -/
theorem rotate_c8_counterexample :
    (rotate_if_needed svcGz envRotOk "/logs" "app.log" stLive100).1.archived_path
      = some "/logs/ops_toolkit_archives/app.log.20250101-120000.gz"
    ∧ (some "/logs/ops_toolkit_archives/app.log.20250101-120000.gz" : Option String)
      ≠ some "/logs/archives/app.log.20250101-120000.gz" := by
  constructor
  · rfl
  · decide

/-- C8, amended.  When rotation fires and every step succeeds, the
archive subdirectory (created if absent) is named `ops_toolkit_archives`,
a sibling of the log, and the final on-disk archive path is
`<dir>/ops_toolkit_archives/<basename>.<ts><suffix>`, where the
configured suffix carries its own leading dot (default `.gz`). -/
theorem rotate_archive_layout (svc : LogRotateService) (env : RotEnv) (dir name : String)
    (st : RotFs) (size : Nat) (hlive : st.live = some size)
    (hstat : env.statFails = false) (hsz : svc.max_bytes ≤ size)
    (hm : env.moveFails = false) (ht : env.touchFails = false)
    (hg : env.gzipFails = false) :
    (rotate_if_needed svc env dir name st).1.rotated = true
    ∧ (rotate_if_needed svc env dir name st).1.archived_path
        = some (rotatedGzPath dir name env.ts svc.archive_suffix)
    ∧ rotatedGzPath dir name env.ts svc.archive_suffix
        = dir ++ "/ops_toolkit_archives" ++ "/" ++ name ++ "." ++ env.ts ++ svc.archive_suffix
    ∧ (rotate_if_needed svc env dir name st).2.dirExists = true := by
  have hlt : ¬ size < svc.max_bytes := by omega
  refine ⟨?_, ?_, rfl, ?_⟩ <;> simp [rotate_if_needed, hlive, hstat, hlt, hm, ht, hg]

/-- C8, witness: the amended theorem applied to the concrete successful
rotation. -/
theorem rotate_archive_layout_witness :
    (rotate_if_needed svcGz envRotOk "/logs" "app.log" stLive100).1.rotated = true
    ∧ (rotate_if_needed svcGz envRotOk "/logs" "app.log" stLive100).1.archived_path
        = some (rotatedGzPath "/logs" "app.log" envRotOk.ts svcGz.archive_suffix)
    ∧ rotatedGzPath "/logs" "app.log" envRotOk.ts svcGz.archive_suffix
        = "/logs" ++ "/ops_toolkit_archives" ++ "/" ++ "app.log" ++ "." ++ envRotOk.ts
            ++ svcGz.archive_suffix
    ∧ (rotate_if_needed svcGz envRotOk "/logs" "app.log" stLive100).2.dirExists = true :=
  rotate_archive_layout svcGz envRotOk "/logs" "app.log" stLive100 100 rfl rfl
    (by decide) rfl rfl rfl

/-! ## Counter characterization lemmas -/

theorem hitKeys_nil : hitKeys [] = [] := rfl

theorem hitKeys_cons (a : List Char) (n : Nat) (c : List (List Char × Nat)) :
    hitKeys ((a, n) :: c) = a :: hitKeys c := rfl

theorem bump_cons_eq (p1 k : List Char) (n : Nat) (rest : List (List Char × Nat))
    (h : p1 = k) : bump ((p1, n) :: rest) k = (p1, n + 1) :: rest := by
  simp [bump, h]

theorem bump_cons_ne (p1 k : List Char) (n : Nat) (rest : List (List Char × Nat))
    (h : ¬ p1 = k) : bump ((p1, n) :: rest) k = (p1, n) :: bump rest k := by
  simp [bump, h]

theorem countOf_bump (c : List (List Char × Nat)) (j k : List Char) :
    countOf k (bump c j) = countOf k c + (if j = k then 1 else 0) := by
  induction c with
  | nil => by_cases h : j = k <;> simp [bump, countOf, h]
  | cons p rest ih =>
    obtain ⟨p1, n⟩ := p
    by_cases h1 : p1 = j
    · rw [bump_cons_eq p1 j n rest h1]
      by_cases h2 : p1 = k
      · have hjk : j = k := h1.symm.trans h2
        simp [countOf, h2, hjk]
      · have hjk : ¬ j = k := fun h => h2 (h1.trans h)
        simp [countOf, h2, hjk]
    · rw [bump_cons_ne p1 j n rest h1]
      by_cases h2 : p1 = k
      · have hjk : ¬ j = k := fun h => h1 (h2.trans h.symm)
        simp [countOf, h2, hjk]
      · simp [countOf, h2, ih]

theorem countOf_scanLine (line k : List Char) :
    ∀ (pats : List (List Char)) (c : List (List Char × Nat)),
      countOf k (scanLine line c pats)
        = countOf k c + (if matchesCI k line then mult k pats else 0) := by
  intro pats
  induction pats with
  | nil =>
    intro c
    by_cases h : matchesCI k line <;> simp [scanLine, mult, h]
  | cons p ps ih =>
    intro c
    simp only [scanLine]
    rw [ih]
    by_cases hp : p = k
    · subst hp
      by_cases hm : matchesCI p line
      · simp [hm, countOf_bump, mult]
        omega
      · simp [hm, countOf_bump, mult]
    · by_cases hm : matchesCI p line
      · by_cases hk : matchesCI k line <;>
          simp [hm, hk, countOf_bump, hp, mult]
      · by_cases hk : matchesCI k line <;> simp [hm, hk, mult, hp]

theorem countOf_tally (pats : List (List Char)) (k : List Char) :
    ∀ (lines : List (List Char)) (c : List (List Char × Nat)),
      countOf k (tally pats c lines)
        = countOf k c + mult k pats * lines.countP (fun ln => matchesCI k ln) := by
  intro lines
  induction lines with
  | nil => intro c; simp [tally]
  | cons ln rest ih =>
    intro c
    simp only [tally]
    rw [ih, countOf_scanLine]
    by_cases hm : matchesCI k ln
    · simp [hm, List.countP_cons, Nat.mul_add, Nat.mul_succ]
      omega
    · simp [hm, List.countP_cons, Nat.mul_add, Nat.mul_succ]

theorem countOf_keyword_hits (lines keywords : List (List Char)) (k : List Char) :
    countOf k (keyword_hits lines keywords)
      = mult k (buildPats keywords) * lines.countP (fun ln => matchesCI k ln) := by
  cases keywords with
  | nil => simp [keyword_hits, buildPats, mult, countOf]
  | cons a as =>
    simp only [keyword_hits]
    rw [countOf_tally]
    simp [countOf]

theorem mem_hitKeys_bump (k j : List Char) :
    ∀ c : List (List Char × Nat), j ∈ hitKeys (bump c k) → j ∈ hitKeys c ∨ j = k := by
  intro c
  induction c with
  | nil =>
    intro h
    simp [bump, hitKeys] at h
    exact Or.inr h
  | cons p rest ih =>
    obtain ⟨p1, n⟩ := p
    by_cases hp : p1 = k
    · intro h
      rw [bump_cons_eq p1 k n rest hp, hitKeys_cons] at h
      rw [hitKeys_cons]
      exact Or.inl h
    · intro h
      rw [bump_cons_ne p1 k n rest hp, hitKeys_cons] at h
      rcases List.mem_cons.mp h with h | h
      · exact Or.inl (by rw [hitKeys_cons]; exact List.mem_cons.mpr (Or.inl h))
      · rcases ih h with h2 | h2
        · exact Or.inl (by rw [hitKeys_cons]; exact List.mem_cons.mpr (Or.inr h2))
        · exact Or.inr h2

theorem hitKeys_bump_nodup (k : List Char) :
    ∀ c : List (List Char × Nat), (hitKeys c).Nodup → (hitKeys (bump c k)).Nodup := by
  intro c
  induction c with
  | nil => intro _; simp [bump, hitKeys]
  | cons p rest ih =>
    obtain ⟨p1, n⟩ := p
    intro h
    rw [hitKeys_cons] at h
    rcases List.nodup_cons.mp h with ⟨hnotin, hrest⟩
    by_cases hp : p1 = k
    · rw [bump_cons_eq p1 k n rest hp, hitKeys_cons]
      exact List.nodup_cons.mpr ⟨hnotin, hrest⟩
    · rw [bump_cons_ne p1 k n rest hp, hitKeys_cons]
      refine List.nodup_cons.mpr ⟨?_, ih hrest⟩
      intro hmem
      rcases mem_hitKeys_bump k p1 rest hmem with h2 | h2
      · exact hnotin h2
      · exact hp h2

theorem hitKeys_scanLine_nodup (line : List Char) :
    ∀ (pats : List (List Char)) (c : List (List Char × Nat)),
      (hitKeys c).Nodup → (hitKeys (scanLine line c pats)).Nodup := by
  intro pats
  induction pats with
  | nil => intro c h; exact h
  | cons p ps ih =>
    intro c h
    simp only [scanLine]
    apply ih
    by_cases hm : matchesCI p line
    · rw [if_pos hm]; exact hitKeys_bump_nodup p c h
    · rw [if_neg hm]; exact h

theorem hitKeys_tally_nodup (pats : List (List Char)) :
    ∀ (lines : List (List Char)) (c : List (List Char × Nat)),
      (hitKeys c).Nodup → (hitKeys (tally pats c lines)).Nodup := by
  intro lines
  induction lines with
  | nil => intro c h; exact h
  | cons ln rest ih =>
    intro c h
    exact ih _ (hitKeys_scanLine_nodup ln pats c h)

theorem hitKeys_keyword_hits_nodup (lines keywords : List (List Char)) :
    (hitKeys (keyword_hits lines keywords)).Nodup := by
  cases keywords with
  | nil => simp [keyword_hits, hitKeys]
  | cons a as =>
    exact hitKeys_tally_nodup _ lines [] (by simp [hitKeys])

theorem mult_eq_zero_of_not_mem (k : List Char) :
    ∀ l : List (List Char), k ∉ l → mult k l = 0 := by
  intro l
  induction l with
  | nil => intro _; rfl
  | cons p ps ih =>
    intro h
    have hp : ¬ p = k := fun he => h (he ▸ List.mem_cons_self p ps)
    have hk : k ∉ ps := fun hm => h (List.mem_cons.mpr (Or.inr hm))
    simp [mult, hp, ih hk]

theorem mult_of_nodup_mem (k : List Char) :
    ∀ l : List (List Char), l.Nodup → k ∈ l → mult k l = 1 := by
  intro l
  induction l with
  | nil => intro _ h; cases h
  | cons p ps ih =>
    intro hnd hmem
    rcases List.nodup_cons.mp hnd with ⟨hnotin, hps⟩
    by_cases hp : p = k
    · subst hp
      simp [mult, mult_eq_zero_of_not_mem p ps hnotin]
    · rcases List.mem_cons.mp hmem with h | h
      · exact absurd h.symm hp
      · simp [mult, hp, ih hps h]

/-! ## Claims about `_keyword_hits` (C5, C6) -/

/-- C5: with pairwise-distinct (stripped) keywords, matching is the
case-insensitive literal substring test and each keyword's counter equals
the number of lines it matches — so it grows by at most 1 per line, and
in total is bounded by the number of lines; and on the spec's example the
scan yields exactly one hit, `ERROR` with count 2. -/
theorem keyword_scan_once_per_line (lines keywords : List (List Char))
    (hnd : (buildPats keywords).Nodup) :
    (∀ k, k ∈ buildPats keywords →
        countOf k (keyword_hits lines keywords)
          = lines.countP (fun ln => matchesCI k ln)
        ∧ countOf k (keyword_hits lines keywords) ≤ lines.length)
    ∧ sortHitsDesc (keyword_hits
        ["INFO ok".toList, "ERROR disk full".toList, "error again".toList]
        ["ERROR".toList])
      = [("ERROR".toList, 2)] := by
  constructor
  · intro k hk
    have h1 := countOf_keyword_hits lines keywords k
    rw [mult_of_nodup_mem k _ hnd hk, one_mul] at h1
    exact ⟨h1, h1 ▸ List.countP_le_length _⟩
  · decide

/-- C5, witness: the theorem applied to the spec's concrete example. -/
theorem keyword_scan_once_per_line_witness :
    countOf ("ERROR".toList)
        (keyword_hits ["INFO ok".toList, "ERROR disk full".toList, "error again".toList]
          ["ERROR".toList])
      = List.countP (fun ln => matchesCI ("ERROR".toList) ln)
          ["INFO ok".toList, "ERROR disk full".toList, "error again".toList]
    ∧ countOf ("ERROR".toList)
        (keyword_hits ["INFO ok".toList, "ERROR disk full".toList, "error again".toList]
          ["ERROR".toList]) ≤ 3 :=
  (keyword_scan_once_per_line
    ["INFO ok".toList, "ERROR disk full".toList, "error again".toList]
    ["ERROR".toList] (by decide)).1 ("ERROR".toList) (by decide)

/-- C6, counterexample.  The claim says the keyword `ERROR` supplied
twice gives two independent hits (here each with count 1).  The source
keys its `Counter` by the keyword string, so both matchers bump the same
entry: one line containing `ERROR` yields the single hit
`(ERROR, 2)`, not two hits. -/
theorem keyword_c6_counterexample :
    keyword_hits ["ERROR x".toList] ["ERROR".toList, "ERROR".toList]
      = [("ERROR".toList, 2)]
    ∧ (keyword_hits ["ERROR x".toList] ["ERROR".toList, "ERROR".toList]).length ≠ 2 := by
  decide

/-- C6, amended.  Duplicate keywords do produce duplicate matchers, but
their counters are merged: the counter keyed by a (stripped) keyword `k`
equals the multiplicity of `k` among the matchers times the number of
lines matching `k`, and the result carries exactly one entry per distinct
key (its key list has no duplicates). -/
theorem keyword_hits_merge_duplicates (lines keywords : List (List Char)) :
    (∀ k, countOf k (keyword_hits lines keywords)
        = mult k (buildPats keywords) * lines.countP (fun ln => matchesCI k ln))
    ∧ (hitKeys (keyword_hits lines keywords)).Nodup :=
  ⟨fun k => countOf_keyword_hits lines keywords k,
   hitKeys_keyword_hits_nodup lines keywords⟩

/-! ## Stable descending sort lemmas -/

theorem insertDesc_perm (x : List Char × Nat) :
    ∀ l : List (List Char × Nat), List.Perm (insertDesc x l) (x :: l) := by
  intro l
  induction l with
  | nil => exact List.Perm.refl _
  | cons y ys ih =>
    by_cases h : x.2 < y.2
    · rw [show insertDesc x (y :: ys) = y :: insertDesc x ys from by simp [insertDesc, h]]
      exact (ih.cons y).trans (List.Perm.swap x y ys)
    · rw [show insertDesc x (y :: ys) = x :: y :: ys from by simp [insertDesc, h]]

theorem sortHitsDesc_perm :
    ∀ l : List (List Char × Nat), List.Perm (sortHitsDesc l) l := by
  intro l
  induction l with
  | nil => exact List.Perm.refl _
  | cons x xs ih =>
    exact (insertDesc_perm x (sortHitsDesc xs)).trans (ih.cons x)

theorem insertDesc_sorted (x : List Char × Nat) :
    ∀ l : List (List Char × Nat),
      List.Pairwise (fun a b : List Char × Nat => b.2 ≤ a.2) l →
      List.Pairwise (fun a b : List Char × Nat => b.2 ≤ a.2) (insertDesc x l) := by
  intro l
  induction l with
  | nil => intro _; simp [insertDesc]
  | cons y ys ih =>
    intro h
    rcases List.pairwise_cons.mp h with ⟨hy, hys⟩
    by_cases hlt : x.2 < y.2
    · rw [show insertDesc x (y :: ys) = y :: insertDesc x ys from by simp [insertDesc, hlt]]
      refine List.pairwise_cons.mpr ⟨?_, ih hys⟩
      intro z hz
      rcases (insertDesc_perm x ys).mem_iff.mp hz with hz2
      rcases List.mem_cons.mp hz2 with hz3 | hz3
      · exact hz3 ▸ Nat.le_of_lt hlt
      · exact hy z hz3
    · rw [show insertDesc x (y :: ys) = x :: y :: ys from by simp [insertDesc, hlt]]
      refine List.pairwise_cons.mpr ⟨?_, h⟩
      intro z hz
      rcases List.mem_cons.mp hz with hz2 | hz2
      · exact hz2 ▸ Nat.le_of_not_lt hlt
      · exact Nat.le_trans (hy z hz2) (Nat.le_of_not_lt hlt)

theorem sortHitsDesc_sorted :
    ∀ l : List (List Char × Nat),
      List.Pairwise (fun a b : List Char × Nat => b.2 ≤ a.2) (sortHitsDesc l) := by
  intro l
  induction l with
  | nil => simp [sortHitsDesc]
  | cons x xs ih => exact insertDesc_sorted x (sortHitsDesc xs) ih

theorem filter_insertDesc (x : List Char × Nat) (c : Nat) :
    ∀ l : List (List Char × Nat),
      (insertDesc x l).filter (fun p => p.2 == c)
        = if x.2 == c then x :: l.filter (fun p => p.2 == c)
          else l.filter (fun p => p.2 == c) := by
  intro l
  induction l with
  | nil =>
    by_cases h : x.2 = c
    · simp [insertDesc, List.filter, h]
    · have hb : (x.2 == c) = false := beq_eq_false_iff_ne.mpr h
      simp [insertDesc, List.filter, h, hb]
  | cons y ys ih =>
    by_cases hlt : x.2 < y.2
    · rw [show insertDesc x (y :: ys) = y :: insertDesc x ys from by simp [insertDesc, hlt]]
      by_cases hx : x.2 = c
      · have hy : ¬ y.2 = c := by omega
        simp [List.filter_cons, hx, hy, ih]
      · by_cases hy : y.2 = c <;> simp [List.filter_cons, hx, hy, ih]
    · rw [show insertDesc x (y :: ys) = x :: y :: ys from by simp [insertDesc, hlt]]
      by_cases hx : x.2 = c <;> simp [List.filter_cons, hx]

theorem sortHitsDesc_filter (c : Nat) :
    ∀ l : List (List Char × Nat),
      (sortHitsDesc l).filter (fun p => p.2 == c) = l.filter (fun p => p.2 == c) := by
  intro l
  induction l with
  | nil => rfl
  | cons x xs ih =>
    rw [show sortHitsDesc (x :: xs) = insertDesc x (sortHitsDesc xs) from rfl,
      filter_insertDesc x c (sortHitsDesc xs), ih]
    by_cases hx : x.2 = c <;> simp [List.filter_cons, hx]

/-! ## Claim about the hit ordering (C7) -/

/-- C7, counterexample.  The claim says equal-count hits appear in the
original configuration order.  With keywords configured `[alpha, beta]`
and a batch whose first line matches `beta` and second matches `alpha`,
both hits have count 1, yet the poll returns `[beta, alpha]` — the
`Counter` insertion order (order of first match), not the configuration
order `[alpha, beta]`. -/
theorem collect_c7_counterexample :
    (collect
      { path := "/l", keywords := ["alpha".toList, "beta".toList], rotator := svcGz,
        max_lines_per_poll := 10, max_line_length := 2000, pos := 0 }
      { fileExists := true,
        rotateRes := { rotated := false, archived_path := none, message := "no rotation" },
        statSize := some 11, statErr := "", content := "beta\nalpha\n".toList,
        readFailAfter := none, readErr := "" }).1.data.keyword_hits
      = [("beta".toList, 1), ("alpha".toList, 1)]
    ∧ ([("beta".toList, 1), ("alpha".toList, 1)]
        : List (List Char × Nat))
      ≠ [("alpha".toList, 1), ("beta".toList, 1)] := by
  constructor
  · rfl
  · decide

/-- C7, amended.  The hit list a poll returns is the stable
descending-by-count sort of the scanner's counter list: it is sorted
descending by count, it is a permutation of the counter list, and hits
with equal counts keep the counter list's order — which is the order in
which the keywords FIRST MATCHED a line of the batch (`Counter` insertion
order), not the configuration order; keywords that match no line are
absent. -/
theorem collect_hits_sorted_stable :
    (∀ l : List (List Char × Nat),
        List.Pairwise (fun a b : List Char × Nat => b.2 ≤ a.2) (sortHitsDesc l)
        ∧ List.Perm (sortHitsDesc l) l
        ∧ ∀ c : Nat, (sortHitsDesc l).filter (fun p => p.2 == c)
            = l.filter (fun p => p.2 == c))
    ∧ ∀ (t : Tailer) (env : PollEnv),
        (collect t env).1.data.keyword_hits
          = sortHitsDesc (keyword_hits (collect t env).1.data.new_lines t.keywords) := by
  constructor
  · intro l
    exact ⟨sortHitsDesc_sorted l, sortHitsDesc_perm l,
      fun c => sortHitsDesc_filter c l⟩
  · intro t env
    by_cases h : env.fileExists
    · simp [collect, h]
    · cases hk : t.keywords <;> simp [collect, h, keyword_hits, sortHitsDesc, hk]

/-! ## Read loop lemmas -/

theorem readLoop_length_le (content : List Char) (maxLen : Nat) :
    ∀ (budget pos : Nat) (fa : Option Nat),
      (readLoop content pos budget maxLen fa).1.length ≤ budget := by
  intro budget
  induction budget with
  | zero => intro pos fa; simp [readLoop]
  | succ b ih =>
    intro pos fa
    by_cases h0 : fa = some 0
    · simp [readLoop, h0]
    · by_cases he : (takeLine (content.drop pos)).isEmpty
      · simp [readLoop, h0, he]
      · have h := ih (pos + (takeLine (content.drop pos)).length) (decFail fa)
        simp [readLoop, h0, he]
        omega

theorem readLoop_none_extends (content : List Char) (maxLen : Nat) :
    ∀ (budget pos : Nat) (fa : Option Nat),
      ∃ rest, (readLoop content pos budget maxLen none).1
        = (readLoop content pos budget maxLen fa).1 ++ rest := by
  intro budget
  induction budget with
  | zero => intro pos fa; exact ⟨[], rfl⟩
  | succ b ih =>
    intro pos fa
    by_cases h0 : fa = some 0
    · exact ⟨(readLoop content pos (b + 1) maxLen none).1, by simp [h0, readLoop]⟩
    · by_cases he : (takeLine (content.drop pos)).isEmpty
      · exact ⟨[], by simp [readLoop, h0, he]⟩
      · obtain ⟨rest, hr⟩ := ih (pos + (takeLine (content.drop pos)).length) (decFail fa)
        exact ⟨rest, by simp [readLoop, h0, he, decFail, hr]⟩

/-! ## Claims about the tailer cursor and read loop (C3, C4, C9, C10) -/

/-- A no-rotation outcome of the rotation check. -/
def noRotRes : RotateResult :=
  { rotated := false, archived_path := none, message := "no rotation" }

/-- C3: on any poll where the file exists and its size is readable, the
cursor used for reading never exceeds the observed size; whenever the
post-rotation cursor exceeds the size it is reset to 0 before reading;
and the lines the poll returns are exactly the ones read from that
guarded position. -/
theorem collect_offset_guard (t : Tailer) (env : PollEnv) (sz : Nat)
    (hex : env.fileExists = true) (hst : env.statSize = some sz) :
    posChecked t.pos env ≤ sz
    ∧ (posAfterRotate t.pos env > sz → posChecked t.pos env = 0)
    ∧ (collect t env).1.data.new_lines
        = (readLoop env.content (posChecked t.pos env) t.max_lines_per_poll
            t.max_line_length env.readFailAfter).1 := by
  refine ⟨?_, ?_, ?_⟩
  · simp only [posChecked, hst]
    by_cases h : posAfterRotate t.pos env > sz
    · simp [h]
    · simp only [if_neg h]
      omega
  · intro h
    simp [posChecked, hst, h]
  · simp [collect, hex]

/-- A tailer whose stored offset (100) exceeds the current 5-byte file:
the externally-replaced-by-a-shorter-file scenario. -/
def tStale : Tailer :=
  { path := "/logs/app.log", keywords := [], rotator := svcGz,
    max_lines_per_poll := 5, max_line_length := 2000, pos := 100 }

/-- Poll environment for `tStale`: no rotation, the file now holds the
5 characters `ab\ncd`. -/
def envShrunk : PollEnv :=
  { fileExists := true, rotateRes := noRotRes, statSize := some 5, statErr := "",
    content := "ab\ncd".toList, readFailAfter := none, readErr := "" }

/-- C3, witness: the stale cursor 100 against a 5-byte file is reset to
0 and the poll reads from the start. -/
theorem collect_offset_guard_witness :
    posChecked tStale.pos envShrunk ≤ 5
    ∧ posChecked tStale.pos envShrunk = 0
    ∧ (collect tStale envShrunk).1.data.new_lines
        = (readLoop envShrunk.content (posChecked tStale.pos envShrunk)
            tStale.max_lines_per_poll tStale.max_line_length
            envShrunk.readFailAfter).1 :=
  have h := collect_offset_guard tStale envShrunk 5 rfl rfl
  ⟨h.1, h.2.1 (by decide), h.2.2⟩

/-- A tailer with `max_lines_per_poll = 2`, cursor at 0. -/
def tCap2 : Tailer :=
  { path := "/logs/app.log", keywords := [], rotator := svcGz,
    max_lines_per_poll := 2, max_line_length := 2000, pos := 0 }

/-- Poll environment with five complete lines `l1`..`l5` on disk. -/
def envFive : PollEnv :=
  { fileExists := true, rotateRes := noRotRes, statSize := some 15, statErr := "",
    content := "l1\nl2\nl3\nl4\nl5\n".toList, readFailAfter := none, readErr := "" }

/-- C4, counterexample.  The claim says that after a first poll returns
2 of 5 lines, "the following poll returns the remaining 3 lines".  The
`for _ in range(self.max_lines_per_poll)` cap applies to EVERY poll, so
the second poll returns `l3, l4` — two lines, not three. -/
theorem collect_c4_counterexample :
    (collect tCap2 envFive).1.data.new_lines = ["l1".toList, "l2".toList]
    ∧ (collect tCap2 envFive).2.pos = 6
    ∧ (collect (collect tCap2 envFive).2 envFive).1.data.new_lines
        ≠ ["l3".toList, "l4".toList, "l5".toList]
    ∧ (collect (collect tCap2 envFive).2 envFive).1.data.new_lines
        = ["l3".toList, "l4".toList] := by
  decide

/-- C4, amended.  Every poll reads at most `max_lines_per_poll` lines
from the stored offset and leaves the offset just past the last line it
consumed; with the cap 2 and five lines available, successive polls
return 2, 2 and 1 lines at offsets 6, 12 and 15 (the byte positions just
past lines 2, 4 and 5) — the remaining three lines need two further
polls, not one. -/
theorem collect_bounded_batch :
    (∀ (t : Tailer) (env : PollEnv),
        (collect t env).1.data.new_lines.length ≤ t.max_lines_per_poll)
    ∧ (collect tCap2 envFive).1.data.new_lines = ["l1".toList, "l2".toList]
    ∧ (collect tCap2 envFive).2.pos = 6
    ∧ (collect (collect tCap2 envFive).2 envFive).1.data.new_lines
        = ["l3".toList, "l4".toList]
    ∧ (collect (collect tCap2 envFive).2 envFive).2.pos = 12
    ∧ (collect (collect (collect tCap2 envFive).2 envFive).2 envFive).1.data.new_lines
        = ["l5".toList]
    ∧ (collect (collect (collect tCap2 envFive).2 envFive).2 envFive).2.pos = 15 := by
  refine ⟨?_, by decide⟩
  intro t env
  by_cases h : env.fileExists
  · simp only [collect, if_pos h]
    exact readLoop_length_le env.content t.max_line_length t.max_lines_per_poll _ _
  · simp [collect, h]

/-- C9: when the read raises partway (here after `j` successful
`readline` calls), the cursor keeps its pre-read value, the lines read
before the failure are still delivered in the snapshot, and a later
failure-free read from that unchanged cursor yields those same lines as
a prefix — at-least-once delivery. -/
theorem collect_read_failure (t : Tailer) (env : PollEnv)
    (hex : env.fileExists = true)
    (hfail : (readLoop env.content (posChecked t.pos env) t.max_lines_per_poll
        t.max_line_length env.readFailAfter).2.2 = true) :
    (collect t env).2.pos = posChecked t.pos env
    ∧ (collect t env).1.data.last_read_pos = posChecked t.pos env
    ∧ (collect t env).1.data.new_lines
        = (readLoop env.content (posChecked t.pos env) t.max_lines_per_poll
            t.max_line_length env.readFailAfter).1
    ∧ ∃ rest, (readLoop env.content (posChecked t.pos env) t.max_lines_per_poll
          t.max_line_length none).1
        = (collect t env).1.data.new_lines ++ rest := by
  refine ⟨?_, ?_, ?_, ?_⟩
  · simp [collect, hex, hfail]
  · simp [collect, hex, hfail]
  · simp [collect, hex]
  · obtain ⟨rest, hr⟩ := readLoop_none_extends env.content t.max_line_length
      t.max_lines_per_poll (posChecked t.pos env) env.readFailAfter
    refine ⟨rest, ?_⟩
    simpa [collect, hex] using hr

/-- A tailer about to read three lines. -/
def tFail : Tailer :=
  { path := "/l", keywords := [], rotator := svcGz,
    max_lines_per_poll := 3, max_line_length := 2000, pos := 0 }

/-- Poll environment whose read raises after one successful line. -/
def envReadFail : PollEnv :=
  { fileExists := true, rotateRes := noRotRes, statSize := some 6, statErr := "",
    content := "a\nb\nc\n".toList, readFailAfter := some 1, readErr := "boom" }

/-- C9, witness: the read fails after delivering `a`; the cursor stays
at 0 and the snapshot still carries the line `a`. -/
theorem collect_read_failure_witness :
    (collect tFail envReadFail).2.pos = posChecked tFail.pos envReadFail
    ∧ (collect tFail envReadFail).1.data.last_read_pos
        = posChecked tFail.pos envReadFail
    ∧ (collect tFail envReadFail).1.data.new_lines
        = (readLoop envReadFail.content (posChecked tFail.pos envReadFail)
            tFail.max_lines_per_poll tFail.max_line_length
            envReadFail.readFailAfter).1 :=
  have h := collect_read_failure tFail envReadFail rfl (by decide)
  ⟨h.1, h.2.1, h.2.2.1⟩

/-- C10: `configure` sets the cursor to 0 on EVERY call — whatever the
arguments, including a call that passes nothing at all — while each
omitted argument leaves its piece of state untouched: the path, the
keyword list, the rotation threshold and the retention count survive
`none`; and the all-`none` call changes exactly the cursor. -/
theorem configure_resets_cursor (t : Tailer) (p : Option String)
    (kw : Option (List (List Char))) (rmb rka : Option Nat) :
    (configure t p kw rmb rka).pos = 0
    ∧ (configure t none kw rmb rka).path = t.path
    ∧ (configure t p none rmb rka).keywords = t.keywords
    ∧ (configure t p kw none rka).rotator.max_bytes = t.rotator.max_bytes
    ∧ (configure t p kw rmb none).rotator.keep_archives = t.rotator.keep_archives
    ∧ configure t none none none none = { t with pos := 0 } := by
  refine ⟨rfl, ?_, ?_, ?_, ?_, rfl⟩
  · rcases kw with _ | ks <;> rcases rmb with _ | m <;> rcases rka with _ | k <;> rfl
  · rcases p with _ | s <;> rcases rmb with _ | m <;> rcases rka with _ | k <;>
      first
        | rfl
        | (by_cases hs : s = "" <;> simp [configure, hs])
  · rcases p with _ | s <;> rcases kw with _ | ks <;> rcases rka with _ | k <;>
      first
        | rfl
        | (by_cases hs : s = "" <;> simp [configure, hs])
  · rcases p with _ | s <;> rcases kw with _ | ks <;> rcases rmb with _ | m <;>
      first
        | rfl
        | (by_cases hs : s = "" <;> simp [configure, hs])

end OpsToolkit
